import Mathlib

/-!
Verification of the identifier-allocation, token-accounting, persistence and
admin-code layer of the chat application (src/utils/database.py,
src/utils/token_counter.py, src/page_modules/chat.py,
src/scripts/fix_duplicate_ids.py, src/scripts/manage_admin_codes.py).

The MongoDB collections are modelled as Lean lists of structures; a
`find_one_and_update` with `$inc` on a counter document is modelled as an
atomic step on an `Option Nat` state (`none` models the absent counter
document before the upsert creates it).  `datetime.utcnow()` values are
modelled as opaque `Nat` timestamps supplied by the caller.  The tiktoken
encoder (an external library) is abstracted as a function
`enc : String -> Nat` giving the length of the encoding of a string, passed
as a parameter to every token-counting definition.
-/

namespace ChatApp

/-! ### Decimal formatting and parsing

Python `str(n)` for a non-negative integer, `str.zfill`, the f-string
`f"P{n:03d}"` padding, and `int(s)` on digit strings, as used by
`save_prompt`, `save_conversation` and `id_to_display_number`. -/

/-- One step of producing the decimal digits of `n`, most significant first.
`fuel` is a structural-recursion bound; `fuel > n` is always sufficient. -/
def pyStrAux : Nat → Nat → List Char → List Char
  | 0, _, acc => acc
  | fuel + 1, n, acc =>
    let d := Nat.digitChar (n % 10)
    if n / 10 = 0 then d :: acc else pyStrAux fuel (n / 10) (d :: acc)

/-- The decimal digit characters of `n`, most significant first:
the characters of Python `str(n)` for non-negative `n`. -/
def natDigits (n : Nat) : List Char := pyStrAux (n + 1) n []

/-- Python `str(n)` for a non-negative integer `n`. -/
def pyStr (n : Nat) : String := String.mk (natDigits n)

/-- Python `str.zfill(w)` on the character list of a string of digits
(no sign handling: only applied to non-negative numerals here). -/
def zfillChars (w : Nat) (cs : List Char) : List Char :=
  if w ≤ cs.length then cs else List.replicate (w - cs.length) '0' ++ cs

/-- Python `s.zfill(w)` for a numeral string. -/
def zfill (w : Nat) (s : String) : String := String.mk (zfillChars w s.toList)

/-- The formatted display ID `f"{p}{n:0{w}d}"`, e.g. `formatId 'P' 1 3 = "P001"`.
For non-negative `n` the `0w d` format spec equals `str(n).zfill(w)`. -/
def formatId (p : Char) (n w : Nat) : String :=
  String.mk (p :: zfillChars w (natDigits n))

/-- The numeric value of a list of decimal digit characters
(accumulating left fold, as `int()` computes it). -/
def digitsVal (cs : List Char) : Nat :=
  cs.foldl (fun a c => a * 10 + (c.toNat - 48)) 0

/-- Python `int(s)` restricted to the strings these IDs contain: succeeds
exactly on a non-empty all-digit list, otherwise raises (`none`). -/
def parseDigits (cs : List Char) : Option Nat :=
  if cs ≠ [] ∧ cs.all Char.isDigit then some (digitsVal cs) else none

/-- Embeds `id_to_display_number` from src/utils/database.py (lines 576-592):
empty string maps to 0; a string starting with `P` or `C` parses its tail
(0 on `ValueError`); otherwise the whole string is parsed (0 on failure). -/
def idToDisplayNumber (s : String) : Nat :=
  match s.toList with
  | [] => 0
  | c :: rest =>
    if c = 'P' ∨ c = 'C' then
      match parseDigits rest with
      | some n => n
      | none => 0
    else
      match parseDigits (c :: rest) with
      | some n => n
      | none => 0

/-! Lemmas about the digit machinery. -/

theorem pyStrAux_append (fuel : Nat) : ∀ (n : Nat) (acc : List Char),
    pyStrAux fuel n acc = pyStrAux fuel n [] ++ acc := by
  induction fuel with
  | zero => intro n acc; simp [pyStrAux]
  | succ f ih =>
    intro n acc
    simp only [pyStrAux]
    by_cases h : n / 10 = 0
    · simp [h]
    · simp only [if_neg h]
      rw [ih (n / 10) (Nat.digitChar (n % 10) :: acc),
          ih (n / 10) [Nat.digitChar (n % 10)]]
      simp

theorem pyStrAux_fuel_irrel : ∀ (n fuel fuel' : Nat), n < fuel → n < fuel' →
    pyStrAux fuel n [] = pyStrAux fuel' n [] := by
  intro n
  induction n using Nat.strong_induction_on with
  | _ n ih =>
    intro fuel fuel' hf hf'
    match fuel, fuel' with
    | f + 1, g + 1 =>
      simp only [pyStrAux]
      by_cases h : n / 10 = 0
      · simp [h]
      · simp only [if_neg h]
        rw [pyStrAux_append f, pyStrAux_append g]
        have hlt : n / 10 < n := Nat.div_lt_self (Nat.pos_of_ne_zero (by
          intro hn; exact h (by simp [hn]))) (by norm_num)
        rw [ih (n / 10) hlt f g (by omega) (by omega)]

/-- The defining recurrence of `natDigits`, stated without fuel. -/
theorem natDigits_step (n : Nat) :
    natDigits n = if n < 10 then [Nat.digitChar n]
      else natDigits (n / 10) ++ [Nat.digitChar (n % 10)] := by
  by_cases h : n < 10
  · have h10 : n / 10 = 0 := Nat.div_eq_of_lt h
    have hmod : n % 10 = n := Nat.mod_eq_of_lt h
    simp [natDigits, pyStrAux, h10, hmod, h]
  · have h10 : n / 10 ≠ 0 := by omega
    have hlt : n / 10 < n := Nat.div_lt_self (by omega) (by norm_num)
    simp only [natDigits, pyStrAux, if_neg h10, if_neg h]
    rw [pyStrAux_append n]
    congr 1
    exact pyStrAux_fuel_irrel (n / 10) n (n / 10 + 1) hlt (Nat.lt_succ_self _)

theorem digitChar_val {n : Nat} (h : n < 10) : (Nat.digitChar n).toNat - 48 = n := by
  interval_cases n <;> rfl

theorem digitChar_isDigit {n : Nat} (h : n < 10) : (Nat.digitChar n).isDigit = true := by
  interval_cases n <;> rfl

theorem digitsVal_append (cs ds : List Char) :
    digitsVal (cs ++ ds) = ds.foldl (fun a c => a * 10 + (c.toNat - 48)) (digitsVal cs) := by
  simp [digitsVal, List.foldl_append]

theorem digitsVal_natDigits (n : Nat) : digitsVal (natDigits n) = n := by
  induction n using Nat.strong_induction_on with
  | _ n ih =>
    rw [natDigits_step]
    by_cases h : n < 10
    · simp [h, digitsVal, digitChar_val h]
    · have hlt : n / 10 < n := Nat.div_lt_self (by omega) (by norm_num)
      simp only [if_neg h]
      rw [digitsVal_append, ih (n / 10) hlt]
      simp only [List.foldl_cons, List.foldl_nil]
      rw [digitChar_val (Nat.mod_lt n (by norm_num))]
      omega

theorem natDigits_all_digit (n : Nat) : (natDigits n).all Char.isDigit = true := by
  induction n using Nat.strong_induction_on with
  | _ n ih =>
    rw [natDigits_step]
    by_cases h : n < 10
    · simp [h, digitChar_isDigit h]
    · have hlt : n / 10 < n := Nat.div_lt_self (by omega) (by norm_num)
      simp only [if_neg h, List.all_append, List.all_cons, List.all_nil]
      simp [ih (n / 10) hlt, digitChar_isDigit (Nat.mod_lt n (show 0 < 10 by norm_num))]

theorem natDigits_ne_nil (n : Nat) : natDigits n ≠ [] := by
  rw [natDigits_step]
  by_cases h : n < 10 <;> simp [h]

theorem digitsVal_replicate_zero (k : Nat) (ds : List Char) :
    digitsVal (List.replicate k '0' ++ ds) = digitsVal ds := by
  induction k with
  | zero => simp
  | succ m ih =>
    rw [List.replicate_succ, List.cons_append]
    simpa [digitsVal] using ih

theorem parseDigits_zfill_natDigits (w n : Nat) :
    parseDigits (zfillChars w (natDigits n)) = some n := by
  unfold zfillChars
  by_cases h : w ≤ (natDigits n).length
  · simp only [if_pos h]
    rw [parseDigits, if_pos ⟨natDigits_ne_nil n, natDigits_all_digit n⟩,
        digitsVal_natDigits]
  · simp only [if_neg h]
    have hne : List.replicate (w - (natDigits n).length) '0' ++ natDigits n ≠ [] := by
      simp [natDigits_ne_nil n]
    have hall : (List.replicate (w - (natDigits n).length) '0' ++ natDigits n).all
        Char.isDigit = true := by
      rw [List.all_append]
      have hz : (List.replicate (w - (natDigits n).length) '0').all Char.isDigit = true := by
        simp only [List.all_eq_true]
        intro c hc
        rw [List.eq_of_mem_replicate hc]
        rfl
      simp [hz, natDigits_all_digit n]
    rw [parseDigits, if_pos ⟨hne, hall⟩, digitsVal_replicate_zero, digitsVal_natDigits]

theorem idToDisplayNumber_formatId_P (n w : Nat) :
    idToDisplayNumber (formatId 'P' n w) = n := by
  show idToDisplayNumber (String.mk ('P' :: zfillChars w (natDigits n))) = n
  simp only [idToDisplayNumber, String.toList]
  simp [parseDigits_zfill_natDigits w n]

theorem idToDisplayNumber_formatId_C (n w : Nat) :
    idToDisplayNumber (formatId 'C' n w) = n := by
  show idToDisplayNumber (String.mk ('C' :: zfillChars w (natDigits n))) = n
  simp only [idToDisplayNumber, String.toList]
  simp [parseDigits_zfill_natDigits w n]

/-- Claim C7: `formatId 'P' n 3` equals `"P"` followed by `str(n).zfill(3)`
for every non-negative `n`, and `id_to_display_number` recovers `n` from the
formatted ID for both the `P` and `C` prefixes and every pad width
(in particular for `n` with more than three digits). -/
theorem formatId_zfill_roundtrip (n w : Nat) :
    formatId 'P' n 3 = "P" ++ zfill 3 (pyStr n)
      ∧ idToDisplayNumber (formatId 'P' n w) = n
      ∧ idToDisplayNumber (formatId 'C' n w) = n := by
  refine ⟨?_, idToDisplayNumber_formatId_P n w, idToDisplayNumber_formatId_C n w⟩
  show String.mk ('P' :: zfillChars 3 (natDigits n))
      = "P" ++ String.mk (zfillChars 3 (pyStr n).toList)
  have : (pyStr n).toList = natDigits n := rfl
  rw [this]
  rfl

/-! ### Counter documents and atomic ID allocation

`db.counters.find_one_and_update({"_id": key}, {"$inc": {"sequence": 1}},
upsert=True, return_document=True)` as used by `save_conversation`
(src/utils/database.py lines 381-393) and `save_prompt` (lines 114-126).
The counter state is `Option Nat`: `none` is the absent document; the upsert
creates it with `sequence = 1`.  The whole increment-and-read is one atomic
step, so a concurrent burst of calls linearizes to some sequential order of
these steps. -/

/-- One atomic `$inc`-and-read on a counter document: returns the
post-increment `sequence` value and the new counter state. -/
def nextCounterValue : Option Nat → Nat × Option Nat
  | none => (1, some 1)
  | some k => (k + 1, some (k + 1))

/-- The `sequence` value a counter state holds (an absent document behaves
as 0 with respect to the upserting `$inc`). -/
def seqValue (st : Option Nat) : Nat := st.getD 0

/-- A burst of `n` allocations, in linearization order: each call performs one
atomic `nextCounterValue` step.  Because every step is the same atomic
operation, any concurrent schedule of the burst is equal to this sequential
composition; returns the allocated sequence numbers in linearization order. -/
def allocBurst : Option Nat → Nat → List Nat × Option Nat
  | st, 0 => ([], st)
  | st, n + 1 =>
    let r := nextCounterValue st
    let rest := allocBurst r.2 n
    (r.1 :: rest.1, rest.2)

theorem nextCounterValue_fst (st : Option Nat) :
    (nextCounterValue st).1 = seqValue st + 1 := by
  cases st <;> rfl

theorem nextCounterValue_seq (st : Option Nat) :
    seqValue (nextCounterValue st).2 = seqValue st + 1 := by
  cases st <;> rfl

theorem allocBurst_eq_range (st : Option Nat) (n : Nat) :
    (allocBurst st n).1 = List.range' (seqValue st + 1) n := by
  induction n generalizing st with
  | zero => rfl
  | succ m ih =>
    simp only [allocBurst, List.range']
    rw [nextCounterValue_fst, ih, nextCounterValue_seq]

/-- Claim C1: a burst of `n` concurrent conversation-ID allocations
(each one atomic `find_one_and_update` `$inc` on the counter document) returns
sequence numbers that form exactly the contiguous range `[k+1, k+n]`, where
`k` is the counter's sequence value before the burst, and are pairwise
distinct. -/
theorem allocBurst_contiguous_distinct (st : Option Nat) (n : Nat) :
    (allocBurst st n).1 = List.range' (seqValue st + 1) n
      ∧ (allocBurst st n).1.Nodup := by
  refine ⟨allocBurst_eq_range st n, ?_⟩
  rw [allocBurst_eq_range st n]
  exact List.nodup_range' _ _

/-! ### Token accounting (src/utils/token_counter.py)

`enc : String -> Nat` abstracts `len(get_encoding().encode(text))` of the
fixed tiktoken `o200k_base` encoding. -/

/-- Embeds `count_tokens` (lines 16-22): 0 for falsy text, else the length of the
encoding of the text. -/
def countTokens (enc : String → Nat) (text : String) : Nat :=
  if text = "" then 0 else enc text

/-- The per-message role-formatting overhead constant from
`count_message_tokens` (line 39). -/
def roleOverhead : Nat := 4

/-- Embeds `count_message_tokens` (lines 24-41).  `content` is `Option String` so
that Python's falsy check `if not content` covers both `None` and the empty
string; the `role` argument is accepted but, as in the source, never used in
the computation. -/
def countMessageTokens (enc : String → Nat) (role : String)
    (content : Option String) : Nat :=
  match content with
  | none => 0
  | some c => if c = "" then 0 else enc c + roleOverhead

/-- A chat message embedded in a conversation document: `role`, `content`,
`timestamp`, and the `token_count` field added at save time. -/
structure Message where
  role : String
  content : String
  timestamp : Nat
  tokenCount : Option Nat := none
deriving DecidableEq

/-- The result of `count_conversation_tokens` (lines 43-74):
the two totals and the per-message `(role, content, token_count)` list. -/
structure ConvTokenResult where
  totalInputTokens : Nat
  totalOutputTokens : Nat
  messageTokens : List (String × String × Nat)
deriving DecidableEq

/-- Embeds `count_conversation_tokens` (lines 43-74): `user` and `system` messages
contribute to input, `assistant` messages to output, any other role to
neither; per-message counts are recorded in order. -/
def countConversationTokens (enc : String → Nat) : List Message → ConvTokenResult
  | [] => ⟨0, 0, []⟩
  | m :: ms =>
    let tc := countMessageTokens enc m.role (some m.content)
    let r := countConversationTokens enc ms
    ⟨(if m.role = "user" then tc else if m.role = "assistant" then 0
        else if m.role = "system" then tc else 0) + r.totalInputTokens,
     (if m.role = "user" then 0 else if m.role = "assistant" then tc else 0)
        + r.totalOutputTokens,
     (m.role, m.content, tc) :: r.messageTokens⟩

/-- Claim C10: `count_message_tokens` returns 0 for empty (`None` or `""`)
content with no role overhead; for non-empty content it returns
`count_tokens(content) + 4` regardless of the role, hence at least 5 whenever
the encoder yields at least one token for a non-empty string; and an
empty-content message contributes 0 to conversation token statistics. -/
theorem countMessageTokens_spec (enc : String → Nat)
    (henc : ∀ s : String, s ≠ "" → 1 ≤ enc s)
    (role role' : String) (c : String) (hc : c ≠ "") (t : Nat) :
    countMessageTokens enc role none = 0
      ∧ countMessageTokens enc role (some "") = 0
      ∧ countMessageTokens enc role (some c) = countTokens enc c + 4
      ∧ countMessageTokens enc role (some c) = countMessageTokens enc role' (some c)
      ∧ 5 ≤ countMessageTokens enc role (some c)
      ∧ (countConversationTokens enc [⟨role, "", t, none⟩]).totalInputTokens = 0
      ∧ (countConversationTokens enc [⟨role, "", t, none⟩]).totalOutputTokens = 0 := by
  have hkey : countMessageTokens enc role (some c) = enc c + roleOverhead := by
    simp [countMessageTokens, hc]
  refine ⟨rfl, rfl, ?_, ?_, ?_, ?_, ?_⟩
  · rw [hkey]; simp [countTokens, hc, roleOverhead]
  · rw [hkey]; simp [countMessageTokens, hc]
  · rw [hkey]; have := henc c hc; simp [roleOverhead]; omega
  · simp [countConversationTokens, countMessageTokens]
  · simp [countConversationTokens, countMessageTokens]

/-- Auxiliary fact discharging the encoder hypothesis for the concrete
encoder used in witnesses: a non-empty string has positive length. -/
theorem strLength_pos (s : String) (hs : s ≠ "") : 1 ≤ s.length := by
  cases s with
  | mk data =>
    cases data with
    | nil => exact absurd rfl hs
    | cons c cs => simp [String.length]

/-- Witness for claim C10 at a concrete encoder and message. -/
theorem countMessageTokens_spec_witness :
    countMessageTokens String.length "user" (some "hi")
        = countTokens String.length "hi" + 4
      ∧ 5 ≤ countMessageTokens String.length "user" (some "hi") :=
  ⟨(countMessageTokens_spec String.length strLength_pos "user" "assistant" "hi"
      (by decide) 0).2.2.1,
   (countMessageTokens_spec String.length strLength_pos "user" "assistant" "hi"
      (by decide) 0).2.2.2.2.1⟩

/-! ### Conversation and prompt documents (src/utils/database.py) -/

/-- The `token_stats` subdocument stored on a conversation. -/
structure TokenStats where
  totalInputTokens : Nat
  totalOutputTokens : Nat
deriving DecidableEq

/-- A document attachment stored on a prompt
(as produced by `process_uploaded_document`). -/
structure DocAttachment where
  filename : String
  fileType : String
  fileSize : Nat
  uploadedAt : Nat
  content : String
deriving DecidableEq

/-- A document of the `conversations` collection. -/
structure ConversationDoc where
  conversationId : String
  userCode : String
  promptId : String
  messages : List Message
  tokenStats : TokenStats
  createdAt : Nat
  updatedAt : Nat
deriving DecidableEq

/-- A document of the `prompts` collection as written by `save_prompt`. -/
structure PromptDoc where
  promptId : String
  userCode : String
  content : String
  documents : List DocAttachment
  promptTokenCount : Nat
  documentTokenCount : Nat
  totalTokenCount : Nat
  createdAt : Nat
  updatedAt : Nat
deriving DecidableEq

/-- The `messages_with_tokens` loop shared by `save_conversation` (lines
399-404) and `update_conversation` (lines 438-443): each message is copied
and given `token_count` equal to the `i`-th entry of
`token_stats["message_tokens"]`. -/
def messagesWithTokens (enc : String → Nat) (messages : List Message) : List Message :=
  (messages.zip (countConversationTokens enc messages).messageTokens).map
    (fun p => { p.1 with tokenCount := some p.2.2.2 })

/-- Embeds `save_prompt` (src/utils/database.py lines 108-157): allocates the
per-user prompt counter atomically, formats `f"P{seq:03d}"`, computes the
three token-count fields and inserts the document; returns the document and
the new counter state. -/
def savePrompt (enc : String → Nat) (userCode content : String)
    (documents : List DocAttachment) (counter : Option Nat) (now : Nat) :
    PromptDoc × Option Nat :=
  let r := nextCounterValue counter
  let nextId := formatId 'P' r.1 3
  let promptTokenCount := countTokens enc content
  let documentTokenCount :=
    documents.foldl (fun a d => a + countTokens enc d.content) 0
  ({ promptId := nextId, userCode := userCode, content := content,
     documents := documents, promptTokenCount := promptTokenCount,
     documentTokenCount := documentTokenCount,
     totalTokenCount := promptTokenCount + documentTokenCount,
     createdAt := now, updatedAt := now }, r.2)

/-- Embeds `save_conversation` (src/utils/database.py lines 375-426): allocates the
global conversation counter atomically, formats `f"C{seq:03d}"`, computes
token statistics over the messages, adds per-message `token_count` fields and
inserts the document; returns the document and the new counter state. -/
def saveConversation (enc : String → Nat) (userCode promptId : String)
    (messages : List Message) (counter : Option Nat) (now : Nat) :
    ConversationDoc × Option Nat :=
  let r := nextCounterValue counter
  let nextId := formatId 'C' r.1 3
  let stats := countConversationTokens enc messages
  ({ conversationId := nextId, userCode := userCode, promptId := promptId,
     messages := messagesWithTokens enc messages,
     tokenStats := ⟨stats.totalInputTokens, stats.totalOutputTokens⟩,
     createdAt := now, updatedAt := now }, r.2)

/-- MongoDB `update_one`: updates the first document matching the query,
reporting `modified_count` (1 when the update actually changed the document,
0 when it matched but wrote identical values or matched nothing). -/
def updateOne {α : Type} [DecidableEq α] (q : α → Bool) (f : α → α) :
    List α → Nat × List α
  | [] => (0, [])
  | x :: xs =>
    if q x then ((if f x = x then 0 else 1), f x :: xs)
    else
      let r := updateOne q f xs
      (r.1, x :: r.2)

/-- Embeds `update_conversation` (src/utils/database.py lines 428-468): recomputes
token statistics from the full message list and writes `messages`,
`token_stats` and `updated_at` together in a single `$set`; the query filters
by `conversation_id` and, when supplied, `user_code`.  Returns
`modified_count > 0` and the new collection state. -/
def updateConversation (enc : String → Nat) (conversationId : String)
    (messages : List Message) (userCode : Option String) (now : Nat)
    (store : List ConversationDoc) : Bool × List ConversationDoc :=
  let stats := countConversationTokens enc messages
  let q := fun (d : ConversationDoc) =>
    d.conversationId == conversationId
      && (match userCode with
          | none => true
          | some u => d.userCode == u)
  let f := fun (d : ConversationDoc) =>
    { d with messages := messagesWithTokens enc messages,
             tokenStats := ⟨stats.totalInputTokens, stats.totalOutputTokens⟩,
             updatedAt := now }
  let r := updateOne q f store
  (r.1 > 0, r.2)

/-! Lemmas about the conversation token pipeline. -/

theorem countConversationTokens_messageTokens (enc : String → Nat)
    (ms : List Message) :
    (countConversationTokens enc ms).messageTokens
      = ms.map (fun m => (m.role, m.content, countMessageTokens enc m.role (some m.content))) := by
  induction ms with
  | nil => rfl
  | cons m ms ih => simp [countConversationTokens, ih]

theorem messagesWithTokens_eq_map (enc : String → Nat) (ms : List Message) :
    messagesWithTokens enc ms
      = ms.map (fun m =>
          { m with tokenCount := some (countMessageTokens enc m.role (some m.content)) }) := by
  rw [messagesWithTokens, countConversationTokens_messageTokens]
  induction ms with
  | nil => rfl
  | cons m ms ih => simpa [List.zip] using ih

/-- The conversation token totals depend only on the `role` and `content` of
each message, so any per-message rewrite preserving those fields (such as
adding `token_count`) leaves the recomputed statistics unchanged. -/
theorem countConversationTokens_map_preserving (enc : String → Nat)
    (g : Message → Message) (hrole : ∀ m, (g m).role = m.role)
    (hcontent : ∀ m, (g m).content = m.content) (ms : List Message) :
    countConversationTokens enc (ms.map g) = countConversationTokens enc ms := by
  induction ms with
  | nil => rfl
  | cons m ms ih =>
    simp [countConversationTokens, ih, hrole m, hcontent m]

theorem countConversationTokens_messagesWithTokens (enc : String → Nat)
    (ms : List Message) :
    countConversationTokens enc (messagesWithTokens enc ms)
      = countConversationTokens enc ms := by
  rw [messagesWithTokens_eq_map]
  exact countConversationTokens_map_preserving enc
    (fun m => { m with tokenCount := some (countMessageTokens enc m.role (some m.content)) })
    (fun m => rfl) (fun m => rfl) ms

theorem updateOne_mem {α : Type} [DecidableEq α] (q : α → Bool) (f : α → α) :
    ∀ (l : List α) (x : α), x ∈ (updateOne q f l).2 → x ∈ l ∨ ∃ d ∈ l, x = f d := by
  intro l
  induction l with
  | nil => intro x hx; simp [updateOne] at hx
  | cons a as ih =>
    intro x hx
    by_cases hq : q a
    · simp only [updateOne, if_pos hq] at hx
      rcases List.mem_cons.mp hx with h | h
      · exact Or.inr ⟨a, List.mem_cons_self a as, h⟩
      · exact Or.inl (List.mem_cons_of_mem a h)
    · simp only [updateOne, if_neg hq] at hx
      rcases List.mem_cons.mp hx with h | h
      · exact Or.inl (h ▸ List.mem_cons_self a as)
      · rcases ih x h with h' | ⟨d, hd, hxd⟩
        · exact Or.inl (List.mem_cons_of_mem a h')
        · exact Or.inr ⟨d, List.mem_cons_of_mem a hd, hxd⟩

/-- Claim C2: after any `update_conversation` call, every document in the
collection is either untouched or is the updated document, whose `messages`,
`token_stats` and `updated_at` were all written together in the single
`$set`, and whose stored `token_stats` equals an independent recomputation of
`count_conversation_tokens` over the stored `messages` array. -/
theorem updateConversation_stats_consistent (enc : String → Nat)
    (conversationId : String) (messages : List Message)
    (userCode : Option String) (now : Nat) (store : List ConversationDoc)
    (d : ConversationDoc)
    (hd : d ∈ (updateConversation enc conversationId messages userCode now store).2) :
    d ∈ store
      ∨ (d.messages = messagesWithTokens enc messages
          ∧ d.tokenStats = ⟨(countConversationTokens enc messages).totalInputTokens,
              (countConversationTokens enc messages).totalOutputTokens⟩
          ∧ d.updatedAt = now
          ∧ d.tokenStats.totalInputTokens
              = (countConversationTokens enc d.messages).totalInputTokens
          ∧ d.tokenStats.totalOutputTokens
              = (countConversationTokens enc d.messages).totalOutputTokens) := by
  rcases updateOne_mem _ _ store d hd with h | ⟨e, he, hde⟩
  · exact Or.inl h
  · right
    subst hde
    refine ⟨rfl, rfl, rfl, ?_, ?_⟩ <;>
      simp [countConversationTokens_messagesWithTokens]

/-- Witness for claim C2: a concrete store whose single document matches the
query; the updated document satisfies the stats-recomputation invariant. -/
theorem updateConversation_stats_consistent_witness :
    (let enc := String.length
     let msgs : List Message := [⟨"system", "sys", 0, none⟩, ⟨"user", "hello", 1, none⟩]
     let store : List ConversationDoc :=
       [{ conversationId := "C001", userCode := "AB12C", promptId := "P001",
          messages := [⟨"system", "sys", 0, some 7⟩], tokenStats := ⟨7, 0⟩,
          createdAt := 0, updatedAt := 0 }]
     let d : ConversationDoc :=
       { conversationId := "C001", userCode := "AB12C", promptId := "P001",
         messages := messagesWithTokens enc msgs,
         tokenStats := ⟨(countConversationTokens enc msgs).totalInputTokens,
           (countConversationTokens enc msgs).totalOutputTokens⟩,
         createdAt := 0, updatedAt := 5 }
     d ∈ store
       ∨ (d.messages = messagesWithTokens enc msgs
           ∧ d.tokenStats = ⟨(countConversationTokens enc msgs).totalInputTokens,
               (countConversationTokens enc msgs).totalOutputTokens⟩
           ∧ d.updatedAt = 5
           ∧ d.tokenStats.totalInputTokens
               = (countConversationTokens enc d.messages).totalInputTokens
           ∧ d.tokenStats.totalOutputTokens
               = (countConversationTokens enc d.messages).totalOutputTokens)) :=
  updateConversation_stats_consistent String.length "C001"
    [⟨"system", "sys", 0, none⟩, ⟨"user", "hello", 1, none⟩]
    (some "AB12C") 5
    [{ conversationId := "C001", userCode := "AB12C", promptId := "P001",
       messages := [⟨"system", "sys", 0, some 7⟩], tokenStats := ⟨7, 0⟩,
       createdAt := 0, updatedAt := 0 }]
    _ (by decide)

/-- Claim C3: `save_prompt` persists `prompt_token_count = count_tokens(C)`,
`document_token_count` equal to the sum over the documents of the token count
of their content, and `total_token_count` equal to their sum. -/
theorem savePrompt_token_counts (enc : String → Nat) (userCode content : String)
    (documents : List DocAttachment) (counter : Option Nat) (now : Nat) :
    ((savePrompt enc userCode content documents counter now).1.promptTokenCount
        = countTokens enc content)
      ∧ ((savePrompt enc userCode content documents counter now).1.documentTokenCount
        = (documents.map (fun d => countTokens enc d.content)).sum)
      ∧ ((savePrompt enc userCode content documents counter now).1.totalTokenCount
        = (savePrompt enc userCode content documents counter now).1.promptTokenCount
          + (savePrompt enc userCode content documents counter now).1.documentTokenCount) := by
  refine ⟨rfl, ?_, rfl⟩
  show documents.foldl (fun a d => a + countTokens enc d.content) 0
      = (documents.map (fun d => countTokens enc d.content)).sum
  have hfold : ∀ (l : List DocAttachment) (a : Nat),
      l.foldl (fun a d => a + countTokens enc d.content) a
        = a + (l.map (fun d => countTokens enc d.content)).sum := by
    intro l
    induction l with
    | nil => intro a; simp
    | cons d ds ih => intro a; simp [ih]; omega
  simpa using hfold documents 0

/-! ### Starting a conversation (src/page_modules/chat.py lines 232-279) -/

/-- The numbered reference-document block appended to the system message,
one entry per document counting from `i` (`enumerate(docs, 1)` starts at 1). -/
def refDocBlock (i : Nat) : List DocAttachment → String
  | [] => ""
  | d :: ds =>
    "\n--- Document " ++ pyStr i ++ ": " ++ d.filename ++ " ---\n"
      ++ d.content ++ "\n" ++ refDocBlock (i + 1) ds

/-- The system-message content built by `start_new_conversation`: the prompt
content, followed by the reference-documents block only when the prompt has a
(truthy, i.e. non-empty) document list. -/
def buildSystemContent (p : PromptDoc) : String :=
  if p.documents.isEmpty then p.content
  else p.content ++ "\n\n**Reference Documents:**\n" ++ refDocBlock 1 p.documents

/-- Embeds `start_new_conversation` (src/page_modules/chat.py lines 232-279):
builds the single initial system message from the loaded prompt and persists
it through `save_conversation`; returns the new conversation document and the
new counter state. -/
def startNewConversation (enc : String → Nat) (p : PromptDoc)
    (userCode : String) (counter : Option Nat) (now : Nat) :
    ConversationDoc × Option Nat :=
  let systemContent := buildSystemContent p
  let messages : List Message := [⟨"system", systemContent, now, none⟩]
  saveConversation enc userCode p.promptId messages counter now

/-- Claim C6: for a prompt with non-empty content and no documents, the
conversation created by `start_new_conversation` has exactly one message,
whose role is `system` and whose content is the prompt content with no
reference-document block, and its `token_stats.total_output_tokens` is 0. -/
theorem startNewConversation_no_documents (enc : String → Nat) (p : PromptDoc)
    (userCode : String) (counter : Option Nat) (now : Nat)
    (hdocs : p.documents = []) (hcontent : p.content ≠ "") :
    ((startNewConversation enc p userCode counter now).1.messages.length = 1)
      ∧ ((startNewConversation enc p userCode counter now).1.messages.map
          Message.role = ["system"])
      ∧ ((startNewConversation enc p userCode counter now).1.messages.map
          Message.content = [p.content])
      ∧ ((startNewConversation enc p userCode counter now).1.tokenStats.totalOutputTokens
          = 0) := by
  have hsys : buildSystemContent p = p.content := by
    simp [buildSystemContent, hdocs]
  simp [startNewConversation, saveConversation, messagesWithTokens_eq_map,
    countConversationTokens, hsys]

/-- Witness for claim C6 at a concrete documentless prompt. -/
theorem startNewConversation_no_documents_witness :
    (let enc := String.length
     let p : PromptDoc :=
       { promptId := "P001", userCode := "AB12C",
         content := "Explain photosynthesis", documents := [],
         promptTokenCount := 22, documentTokenCount := 0, totalTokenCount := 22,
         createdAt := 0, updatedAt := 0 }
     ((startNewConversation enc p "AB12C" none 3).1.messages.length = 1)
       ∧ ((startNewConversation enc p "AB12C" none 3).1.messages.map
           Message.role = ["system"])
       ∧ ((startNewConversation enc p "AB12C" none 3).1.messages.map
           Message.content = ["Explain photosynthesis"])
       ∧ ((startNewConversation enc p "AB12C" none 3).1.tokenStats.totalOutputTokens
           = 0)) :=
  startNewConversation_no_documents String.length
    { promptId := "P001", userCode := "AB12C",
      content := "Explain photosynthesis", documents := [],
      promptTokenCount := 22, documentTokenCount := 0, totalTokenCount := 22,
      createdAt := 0, updatedAt := 0 }
    "AB12C" none 3 rfl (by decide)

/-! ### Admin codes (src/utils/database.py lines 594-708,
src/scripts/manage_admin_codes.py lines 27-65) -/

/-- A document of the `admin_codes` collection. -/
structure AdminCode where
  code : String
  level : String
  addedBy : String
  createdAt : Nat
  isActive : Bool
  removedBy : Option String := none
  removedAt : Option Nat := none
deriving DecidableEq

/-- Python `code.upper()`: character-wise uppercasing (admin codes are
5-character ASCII alphanumerics, for which this is exact). -/
def pyUpper (s : String) : String := String.mk (s.toList.map Char.toUpper)

/-- Embeds `add_admin_code` (lines 595-618): rejects when `find_one` on the
uppercased code returns a document (with no `is_active` filter), otherwise
inserts a new active entry. -/
def addAdminCode (code level addedBy : String) (now : Nat)
    (store : List AdminCode) : Bool × List AdminCode :=
  if (store.find? (fun e => e.code == pyUpper code)).isSome then (false, store)
  else
    let entry : AdminCode :=
      { code := pyUpper code, level := level, addedBy := addedBy,
        createdAt := now, isActive := true }
    (true, store ++ [entry])

/-- Embeds `remove_admin_code` (lines 620-641): soft delete via `update_one` on the
uppercased code, setting `is_active = false` plus the audit fields; returns
`modified_count > 0`.  No level check is performed here. -/
def removeAdminCode (code removedBy : String) (now : Nat)
    (store : List AdminCode) : Bool × List AdminCode :=
  let r := updateOne (fun e => e.code == pyUpper code)
    (fun e => { e with isActive := false, removedBy := some removedBy,
                       removedAt := some now }) store
  (r.1 > 0, r.2)

/-- Embeds `is_admin_code` (lines 660-675): `find_one` on the uppercased code
restricted to active entries. -/
def isAdminCode (code : String) (store : List AdminCode) : Bool :=
  (store.find? (fun e => e.code == pyUpper code && e.isActive)).isSome

/-- Embeds `get_admin_level` (lines 677-692): the `level` of the active entry for
the uppercased code, if any. -/
def getAdminLevel (code : String) (store : List AdminCode) : Option String :=
  (store.find? (fun e => e.code == pyUpper code && e.isActive)).map AdminCode.level

/-- Embeds `remove_admin_code_script` (src/scripts/manage_admin_codes.py lines
48-65): fails when the code is not an active admin code, fails without
touching the store when its level is `super_admin`, and otherwise delegates
to `remove_admin_code` on the uppercased code. -/
def removeAdminCodeScript (code removedBy : String) (now : Nat)
    (store : List AdminCode) : Bool × List AdminCode :=
  if ¬ isAdminCode code store then (false, store)
  else if getAdminLevel code store = some "super_admin" then (false, store)
  else removeAdminCode (pyUpper code) removedBy now store

/-- Counterexample to claim C4 as stated: on a store whose only entry is an
active `super_admin` code, the database-level `remove_admin_code` returns
success and flips `is_active` to false, instead of rejecting. -/
theorem removeAdminCode_superAdmin_counterexample :
    (let store : List AdminCode :=
       [{ code := "BOSS1", level := "super_admin", addedBy := "system",
          createdAt := 0, isActive := true }]
     store.map AdminCode.level = ["super_admin"]
       ∧ (removeAdminCode "BOSS1" "script" 1 store).1 = true
       ∧ (removeAdminCode "BOSS1" "script" 1 store).2.map AdminCode.isActive
           = [false]) := by
  decide

/-- Claim C4 amended: the script-level removal path
`remove_admin_code_script` rejects a code whose active entry has level
`super_admin`, returning failure and leaving the collection (in particular
every `is_active` flag) unchanged; the database-level `remove_admin_code`
itself performs no such check and soft-deletes any matching code. -/
theorem removeAdminCodeScript_rejects_superAdmin (code removedBy : String)
    (now : Nat) (store : List AdminCode)
    (hlevel : getAdminLevel code store = some "super_admin") :
    removeAdminCodeScript code removedBy now store = (false, store) := by
  have hadmin : isAdminCode code store = true := by
    rw [isAdminCode]
    rcases hfind : store.find? (fun e => e.code == pyUpper code && e.isActive) with
      _ | e
    · rw [getAdminLevel, hfind] at hlevel
      exact absurd hlevel (by simp)
    · simp [hfind]
  simp [removeAdminCodeScript, hadmin, hlevel]

/-- Witness for the amended claim C4 at a concrete store. -/
theorem removeAdminCodeScript_rejects_superAdmin_witness :
    removeAdminCodeScript "BOSS1" "script" 1
        [{ code := "BOSS1", level := "super_admin", addedBy := "system",
           createdAt := 0, isActive := true }]
      = (false,
        [{ code := "BOSS1", level := "super_admin", addedBy := "system",
           createdAt := 0, isActive := true }]) :=
  removeAdminCodeScript_rejects_superAdmin "BOSS1" "script" 1
    [{ code := "BOSS1", level := "super_admin", addedBy := "system",
       createdAt := 0, isActive := true }] (by decide)

/-- Counterexample to claim C5 as stated: a store whose only entry for
`ABC12` is soft-deleted (`is_active = false`) still causes `add_admin_code`
to reject `abc12`, because the duplicate check does not filter on
`is_active`. -/
theorem addAdminCode_inactive_duplicate_counterexample :
    (let store : List AdminCode :=
       [{ code := "ABC12", level := "admin", addedBy := "system",
          createdAt := 0, isActive := false, removedBy := some "x",
          removedAt := some 0 }]
     store.all (fun e => !e.isActive) = true
       ∧ (addAdminCode "abc12" "admin" "y" 1 store).1 = false
       ∧ (addAdminCode "abc12" "admin" "y" 1 store).2 = store) := by
  decide

theorem find?_code_isSome_iff (code : String) (store : List AdminCode) :
    (store.find? (fun e => e.code == pyUpper code)).isSome = true
      ↔ ∃ e ∈ store, e.code = pyUpper code := by
  induction store with
  | nil => simp [List.find?]
  | cons a as ih =>
    by_cases h : a.code = pyUpper code
    · simp [List.find?, h]
    · have hb : (a.code == pyUpper code) = false := by
        simp [h]
      simp [List.find?, hb, ih, h]

/-- Claim C5 amended: `add_admin_code` rejects (returns failure and writes
nothing) exactly when the given code, case-normalized to uppercase, already
exists as an admin code — whether active or soft-deleted; a code existing
only as a soft-deleted entry therefore also causes rejection. -/
theorem addAdminCode_reject_iff_exists (code level addedBy : String)
    (now : Nat) (store : List AdminCode) :
    ((addAdminCode code level addedBy now store).1 = false
        ↔ ∃ e ∈ store, e.code = pyUpper code)
      ∧ ((addAdminCode code level addedBy now store).1 = false
          → (addAdminCode code level addedBy now store).2 = store) := by
  by_cases hex : ∃ e ∈ store, e.code = pyUpper code
  · have hfind : (store.find? (fun e => e.code == pyUpper code)).isSome = true :=
      (find?_code_isSome_iff code store).mpr hex
    refine ⟨⟨fun _ => hex, fun _ => ?_⟩, fun _ => ?_⟩ <;>
      simp [addAdminCode, hfind]
  · have hfind : (store.find? (fun e => e.code == pyUpper code)).isSome = false := by
      cases hb : (store.find? (fun e => e.code == pyUpper code)).isSome with
      | false => rfl
      | true => exact absurd ((find?_code_isSome_iff code store).mp hb) hex
    constructor
    · constructor
      · intro hfalse
        rw [addAdminCode] at hfalse
        simp [hfind] at hfalse
      · intro hex2
        exact absurd hex2 hex
    · intro hfalse
      rw [addAdminCode] at hfalse
      simp [hfind] at hfalse

/-! ### Token-count backfill (src/utils/database.py lines 312-373)

`update_prompt_token_counts` scans prompts matching
`$or: token_count missing, prompt_token_count missing, document_token_count
missing, total_token_count missing`, recomputes the three fields, `$set`s
them and `$unset`s the legacy `token_count`; a prompt counts as updated only
when MongoDB reports `modified_count > 0`, i.e. when the document actually
changed. -/

/-- A prompt document as seen by the backfill: the token-count fields are
optional (`none` models an absent field, in particular the deprecated
`token_count`). -/
structure PromptMig where
  content : String
  documents : List DocAttachment
  tokenCount : Option Nat := none
  promptTokenCount : Option Nat := none
  documentTokenCount : Option Nat := none
  totalTokenCount : Option Nat := none
deriving DecidableEq

/-- The `$or` query of lines 319-326: the prompt is selected when the legacy
`token_count` or any of the three new fields is absent. -/
def needsTokenUpdate (p : PromptMig) : Bool :=
  p.tokenCount.isNone || p.promptTokenCount.isNone
    || p.documentTokenCount.isNone || p.totalTokenCount.isNone

/-- The per-prompt update of lines 334-364: recompute the three counts from
`content` and `documents`, `$set` them, and `$unset` the legacy field
(a no-op when it is already absent). -/
def recomputePromptTokens (enc : String → Nat) (p : PromptMig) : PromptMig :=
  let promptTokenCount := countTokens enc p.content
  let documentTokenCount :=
    p.documents.foldl (fun a d => a + countTokens enc d.content) 0
  { p with promptTokenCount := some promptTokenCount,
           documentTokenCount := some documentTokenCount,
           totalTokenCount := some (promptTokenCount + documentTokenCount),
           tokenCount := none }

/-- Embeds `update_prompt_token_counts` (lines 312-373): returns the number of
prompts whose stored document actually changed, together with the collection
after the run. -/
def updatePromptTokenCounts (enc : String → Nat) :
    List PromptMig → Nat × List PromptMig
  | [] => (0, [])
  | p :: ps =>
    let rest := updatePromptTokenCounts enc ps
    if needsTokenUpdate p then
      let p' := recomputePromptTokens enc p
      ((if p' = p then 0 else 1) + rest.1, p' :: rest.2)
    else (rest.1, p :: rest.2)

theorem recomputePromptTokens_idem (enc : String → Nat) (p : PromptMig) :
    recomputePromptTokens enc (recomputePromptTokens enc p)
      = recomputePromptTokens enc p := by
  simp [recomputePromptTokens]

/-- Claim C9: `update_prompt_token_counts` is idempotent — run on the output
of a previous run over any set of prompts, it reports an updated count of 0
and changes no document. -/
theorem updatePromptTokenCounts_idempotent (enc : String → Nat)
    (ps : List PromptMig) :
    updatePromptTokenCounts enc (updatePromptTokenCounts enc ps).2
      = (0, (updatePromptTokenCounts enc ps).2) := by
  induction ps with
  | nil => rfl
  | cons p ps ih =>
    by_cases h : needsTokenUpdate p = true
    · have h' : needsTokenUpdate (recomputePromptTokens enc p) = true := by
        simp [needsTokenUpdate, recomputePromptTokens]
      simp only [updatePromptTokenCounts, h, if_pos]
      simp only [updatePromptTokenCounts, h', if_pos, ih,
        recomputePromptTokens_idem, if_pos rfl]
    · have hb : needsTokenUpdate p = false := by
        cases hnb : needsTokenUpdate p with
        | false => rfl
        | true => exact absurd hnb h
      simp only [updatePromptTokenCounts, hb, Bool.false_eq_true, if_neg,
        ih, if_false]

/-! ### Duplicate-ID repair (src/scripts/fix_duplicate_ids.py)

`fix_conversation_ids` (lines 17-81) and `fix_prompt_ids` (lines 83-159)
share one walk: records sorted by creation time are visited in order; the
canonical ID for position `i` (0-based) is `f"{letter}{i+1:03d}"`; a record
already seen under its stored ID counts as a duplicate and is rewritten,
otherwise its stored ID is remembered and it is rewritten only when it
differs from the canonical ID.  `modified_count` (and hence the renumbered
count) increases only when the written value differs from the stored one.
Only the ID field of a record is read or written, so a record is modelled by
its ID string; conversations use the letter `C` on the global list, prompts
use `P` on each per-user group. -/

/-- The canonical ID for 1-based sequence position `i`. -/
def canonId (pfx : Char) (i : Nat) : String := formatId pfx i 3

/-- The outcome of one repair walk: duplicate IDs found, records renumbered
(`modified_count > 0` events), and the IDs as stored after the walk. -/
structure FixResult where
  duplicates : Nat
  renumbered : Nat
  ids : List String
deriving DecidableEq

/-- The repair walk of `fix_conversation_ids` lines 39-69 (identical in
shape to `fix_prompt_ids` lines 117-147): `used` is the set of stored IDs
seen so far (kept even when the record is renumbered), `k` the number of
records already visited. -/
def fixIdLoop (pfx : Char) : List String → List String → Nat → FixResult
  | _, [], _ => ⟨0, 0, []⟩
  | used, currId :: rest, k =>
    let newId := canonId pfx (k + 1)
    if currId ∈ used then
      let r := fixIdLoop pfx used rest (k + 1)
      ⟨r.duplicates + 1, (if newId = currId then 0 else 1) + r.renumbered,
        newId :: r.ids⟩
    else
      if currId ≠ newId then
        let r := fixIdLoop pfx (used ++ [currId]) rest (k + 1)
        ⟨r.duplicates, 1 + r.renumbered, newId :: r.ids⟩
      else
        let r := fixIdLoop pfx (used ++ [currId]) rest (k + 1)
        ⟨r.duplicates, r.renumbered, newId :: r.ids⟩

/-- Embeds `fix_conversation_ids` (lines 17-81): the walk over all conversations in
creation order, plus the counter reset to the record count (lines 71-76). -/
def fixConversationIds (ids : List String) : FixResult × Nat :=
  (fixIdLoop 'C' [] ids 0, ids.length)

/-- One step of the per-user grouping of `fix_prompt_ids` lines 100-106
(Python dicts preserve insertion order). -/
def addToGroups (u pid : String) :
    List (String × List String) → List (String × List String)
  | [] => [(u, [pid])]
  | (v, l) :: gs =>
    if v = u then (v, l ++ [pid]) :: gs else (v, l) :: addToGroups u pid gs

/-- The grouping of `(user_code, prompt_id)` records by user, in first-seen
order, from `fix_prompt_ids` lines 100-106. -/
def groupByUser (prompts : List (String × String)) :
    List (String × List String) :=
  prompts.foldl (fun gs p => addToGroups p.1 p.2 gs) []

/-- The per-user walks of `fix_prompt_ids` lines 111-154: each user's group
is repaired with the `P` letter, counters and counts accumulate. -/
def fixPromptGroups : List (String × List String) →
    Nat × Nat × List (String × List String)
  | [] => (0, 0, [])
  | (u, g) :: gs =>
    let r := fixIdLoop 'P' [] g 0
    let rest := fixPromptGroups gs
    (r.duplicates + rest.1, r.renumbered + rest.2.1, (u, r.ids) :: rest.2.2)

/-- Embeds `fix_prompt_ids` (lines 83-159): group by user, then repair each group. -/
def fixPromptIds (prompts : List (String × String)) :
    Nat × Nat × List (String × List String) :=
  fixPromptGroups (groupByUser prompts)

/-- The canonical ID sequence for positions `k+1, ..., k+n`. -/
def canonList (pfx : Char) (k : Nat) : Nat → List String
  | 0 => []
  | n + 1 => canonId pfx (k + 1) :: canonList pfx (k + 1) n

theorem formatId_inj {p : Char} {w : Nat} {n m : Nat}
    (h : formatId p n w = formatId p m w) : n = m := by
  have hdata : p :: zfillChars w (natDigits n) = p :: zfillChars w (natDigits m) :=
    congrArg String.data h
  have htail : zfillChars w (natDigits n) = zfillChars w (natDigits m) :=
    (List.cons.inj hdata).2
  have := parseDigits_zfill_natDigits w n
  rw [htail, parseDigits_zfill_natDigits w m] at this
  exact (Option.some.inj this).symm

theorem canonList_mem {pfx : Char} {k : Nat} :
    ∀ {n : Nat} {x : String}, x ∈ canonList pfx k n →
      ∃ i, i < n ∧ x = canonId pfx (k + i + 1) := by
  intro n
  induction n generalizing k with
  | zero => intro x hx; exact absurd hx (by simp [canonList])
  | succ m ih =>
    intro x hx
    rcases List.mem_cons.mp hx with h | h
    · exact ⟨0, Nat.succ_pos m, by simpa using h⟩
    · rcases ih h with ⟨i, hi, hx'⟩
      exact ⟨i + 1, by omega, by rw [hx']; congr 1; omega⟩

theorem canonId_not_mem_canonList {pfx : Char} {a k n : Nat} (ha : a ≤ k) :
    canonId pfx a ∉ canonList pfx k n := by
  intro hmem
  rcases canonList_mem hmem with ⟨i, _, heq⟩
  have : a = k + i + 1 := formatId_inj heq
  omega

theorem canonList_length (pfx : Char) (k : Nat) :
    ∀ n, (canonList pfx k n).length = n := by
  intro n
  induction n generalizing k with
  | zero => rfl
  | succ m ih => simp [canonList, ih]

/-- On an already-canonical list the repair walk finds no duplicate,
renumbers nothing and leaves every record as it is. -/
theorem fixIdLoop_canonical (pfx : Char) :
    ∀ (n k : Nat) (used : List String),
      (∀ s ∈ used, s ∉ canonList pfx k n) →
      fixIdLoop pfx used (canonList pfx k n) k = ⟨0, 0, canonList pfx k n⟩ := by
  intro n
  induction n with
  | zero => intro k used _; rfl
  | succ m ih =>
    intro k used hused
    have hhead : canonId pfx (k + 1) ∈ canonList pfx k (m + 1) :=
      List.mem_cons_self _ _
    have hnotused : canonId pfx (k + 1) ∉ used := fun hc => hused _ hc hhead
    show fixIdLoop pfx used (canonId pfx (k + 1) :: canonList pfx (k + 1) m) k
        = ⟨0, 0, canonId pfx (k + 1) :: canonList pfx (k + 1) m⟩
    rw [fixIdLoop]
    rw [if_neg hnotused, if_neg (by simp)]
    have hrec : fixIdLoop pfx (used ++ [canonId pfx (k + 1)])
        (canonList pfx (k + 1) m) (k + 1) = ⟨0, 0, canonList pfx (k + 1) m⟩ := by
      refine ih (k + 1) (used ++ [canonId pfx (k + 1)]) ?_
      intro s hs
      rcases List.mem_append.mp hs with h | h
      · intro hmem
        exact hused s h (List.mem_cons_of_mem _ hmem)
      · rw [List.mem_singleton.mp h]
        exact canonId_not_mem_canonList (Nat.le_refl (k + 1))
    simp [hrec]

/-- After any repair walk the stored IDs are exactly the canonical sequence
for the positions visited. -/
theorem fixIdLoop_ids (pfx : Char) :
    ∀ (l used : List String) (k : Nat),
      (fixIdLoop pfx used l k).ids = canonList pfx k l.length := by
  intro l
  induction l with
  | nil => intro used k; rfl
  | cons c rest ih =>
    intro used k
    rw [fixIdLoop]
    by_cases h1 : c ∈ used
    · simp only [if_pos h1]
      show canonId pfx (k + 1) :: (fixIdLoop pfx used rest (k + 1)).ids
          = canonList pfx k (rest.length + 1)
      rw [ih used (k + 1)]
      rfl
    · simp only [if_neg h1]
      by_cases h2 : c ≠ canonId pfx (k + 1)
      · simp only [if_pos h2]
        show canonId pfx (k + 1)
            :: (fixIdLoop pfx (used ++ [c]) rest (k + 1)).ids
          = canonList pfx k (rest.length + 1)
        rw [ih (used ++ [c]) (k + 1)]
        rfl
      · simp only [if_neg h2]
        show canonId pfx (k + 1)
            :: (fixIdLoop pfx (used ++ [c]) rest (k + 1)).ids
          = canonList pfx k (rest.length + 1)
        rw [ih (used ++ [c]) (k + 1)]
        rfl

theorem fixPromptGroups_canonical :
    ∀ (gs : List (String × List String)),
      (∀ g ∈ gs, g.2 = canonList 'P' 0 g.2.length) →
      fixPromptGroups gs = (0, 0, gs) := by
  intro gs
  induction gs with
  | nil => intro _; rfl
  | cons g gs ih =>
    intro hg
    obtain ⟨u, l⟩ := g
    have hl : l = canonList 'P' 0 l.length := hg (u, l) (List.mem_cons_self _ _)
    have hloop : fixIdLoop 'P' [] l 0 = ⟨0, 0, l⟩ := by
      conv_lhs => rw [hl]
      conv_rhs => rw [hl]
      exact fixIdLoop_canonical 'P' l.length 0 [] (by simp)
    have hrest : fixPromptGroups gs = (0, 0, gs) :=
      ih (fun g hgmem => hg g (List.mem_cons_of_mem _ hgmem))
    show fixPromptGroups ((u, l) :: gs) = (0, 0, (u, l) :: gs)
    rw [fixPromptGroups, hloop, hrest]
    rfl

/-- Claim C8: on a dataset whose conversation IDs and per-user prompt IDs
are already canonical (sequential in creation order with no duplicates),
`fix_conversation_ids` and `fix_prompt_ids` find no duplicates, renumber
zero records and leave every record unchanged; moreover, on any dataset the
IDs after one run are canonical, so a second consecutive run changes no
record. -/
theorem fixDuplicateIds_idempotent (ids : List String)
    (prompts : List (String × String))
    (hC : ids = canonList 'C' 0 ids.length)
    (hP : ∀ g ∈ groupByUser prompts, g.2 = canonList 'P' 0 g.2.length) :
    (fixConversationIds ids).1 = ⟨0, 0, ids⟩
      ∧ fixPromptIds prompts = (0, 0, groupByUser prompts)
      ∧ (∀ ids2 : List String,
          fixIdLoop 'C' [] (fixIdLoop 'C' [] ids2 0).ids 0
            = ⟨0, 0, (fixIdLoop 'C' [] ids2 0).ids⟩) := by
  refine ⟨?_, fixPromptGroups_canonical (groupByUser prompts) hP, ?_⟩
  · show fixIdLoop 'C' [] ids 0 = ⟨0, 0, ids⟩
    calc fixIdLoop 'C' [] ids 0
        = fixIdLoop 'C' [] (canonList 'C' 0 ids.length) 0 := by rw [← hC]
      _ = ⟨0, 0, canonList 'C' 0 ids.length⟩ := by
          have := fixIdLoop_canonical 'C' ids.length 0 [] (by simp)
          simpa [canonList_length] using this
      _ = ⟨0, 0, ids⟩ := by rw [← hC]
  · intro ids2
    rw [fixIdLoop_ids 'C' ids2 [] 0]
    have := fixIdLoop_canonical 'C' ids2.length 0 [] (by simp)
    simpa [canonList_length] using this

/-- Witness for claim C8 at a concrete canonical dataset. -/
theorem fixDuplicateIds_idempotent_witness :
    (fixConversationIds ["C001", "C002"]).1 = ⟨0, 0, ["C001", "C002"]⟩
      ∧ fixPromptIds [("AB12C", "P001"), ("AB12C", "P002"), ("ZZ99Z", "P001")]
        = (0, 0, groupByUser
            [("AB12C", "P001"), ("AB12C", "P002"), ("ZZ99Z", "P001")]) :=
  ⟨(fixDuplicateIds_idempotent ["C001", "C002"]
      [("AB12C", "P001"), ("AB12C", "P002"), ("ZZ99Z", "P001")]
      (by decide) (by decide)).1,
   (fixDuplicateIds_idempotent ["C001", "C002"]
      [("AB12C", "P001"), ("AB12C", "P002"), ("ZZ99Z", "P001")]
      (by decide) (by decide)).2.1⟩

end ChatApp
